import Mathlib

/-!
Verification of the graph-reconstruction and derived-view engine of the
賈母 (Jia Mu) social-network dashboard.

The definitions below are shallow embeddings of the Python source:
  * `streamlit_page.py`      (class `JiaMuStreamlitApp`, referred to as the "old variant")
  * `streamlit_page_new.py`  (class `JiaMuStreamlitApp`, the "new variant")
  * `Project/stream_page_new1.py` (class `JiaMuAnalyzer`, the "new1 variant")

Floating point numbers are modelled as `ℚ` (for table weights and
statistics, where the code only filters, sorts, adds and divides) and as
`ℝ` (for the trigonometric layout).  Python exceptions are modelled as
explicit error constructors.
-/

/-- A row of the `df_metrics` table (`PerCharacterRow` of the spec):
built by `pd.DataFrame(self.step3_data['df_metrics'])` in both variants.
Column names follow the source. -/
structure Row where
  character : String
  weight_to_jiamu : ℚ
  degree : ℤ
  degree_centrality : ℚ
  betweenness_centrality : ℚ
  closeness_centrality : ℚ
  eigenvector_centrality : ℚ
deriving DecidableEq

/-- Convenience constructor for concrete rows: only the character name and
the weight matter to the ranking paths; all centralities are set to 0. -/
def mkRow (c : String) (w : ℚ) : Row :=
  ⟨c, w, 0, 0, 0, 0, 0⟩

/-- Members of `self.character_types['family_male']`. -/
def family_male_members : List String :=
  ["賈政", "賈赦", "賈璉", "賈寶玉", "賈蓉", "賈薔", "賈蘭", "賈芸", "賈芹", "賈環", "賈瑞"]

/-- Members of `self.character_types['family_female']`. -/
def family_female_members : List String :=
  ["王夫人", "邢夫人", "王熙鳳", "賈探春", "賈迎春", "賈惜春", "賈元春"]

/-- Members of `self.character_types['servants']`. -/
def servants_members : List String :=
  ["花襲人", "鴛鴦", "晴雯", "麝月", "秋紋", "碧痕", "平兒", "紫鵑"]

/-- Members of `self.character_types['guests']`. -/
def guests_members : List String :=
  ["林黛玉", "薛寶釵", "史湘雲", "妙玉", "李紈", "秦可卿", "香菱"]

/-- The static membership lists `self.character_types`
(`streamlit_page.py` lines 96-101 and `streamlit_page_new.py` lines 50-55,
identical in both variants), in the dict insertion order, which is the
iteration order of `self.character_types.items()` in Python 3.7+. -/
def character_types : List (String × List String) :=
  [("family_male", family_male_members),
   ("family_female", family_female_members),
   ("servants", servants_members),
   ("guests", guests_members)]

/-- The loop body of `get_character_type`: walk the membership lists in
order, return the first type whose list contains the character. -/
def get_character_type_go (character : String) :
    List (String × List String) → String
  | [] => "other"
  | (type_name, characters) :: rest =>
    if character ∈ characters then type_name
    else get_character_type_go character rest

/-- `get_character_type` (`streamlit_page.py` lines 103-108,
`streamlit_page_new.py` lines 85-90, identical): iterate over
`self.character_types.items()`, return the first matching type name,
fall back to `'other'`. -/
def get_character_type (character : String) : String :=
  get_character_type_go character character_types

/-- The comparison used by `sort_values('weight_to_jiamu', ascending=...)`:
`a` may come before `b`.  With `descending = true` this orders by
non-increasing weight, with `descending = false` by non-decreasing weight. -/
def weightOrder (descending : Bool) (a b : Row) : Prop :=
  if descending then b.weight_to_jiamu ≤ a.weight_to_jiamu
  else a.weight_to_jiamu ≤ b.weight_to_jiamu

instance (descending : Bool) : DecidableRel (weightOrder descending) := by
  intro a b
  unfold weightOrder
  infer_instance

instance (descending : Bool) : IsTotal Row (weightOrder descending) := by
  constructor
  intro a b
  unfold weightOrder
  cases descending <;> simp <;> exact le_total _ _

instance (descending : Bool) : IsTrans Row (weightOrder descending) := by
  constructor
  intro a b c hab hbc
  unfold weightOrder at *
  cases descending <;> simp_all
  · exact le_trans hab hbc
  · exact le_trans hbc hab

/-- The ranking pipeline of `show_relationship_analysis`
(`streamlit_page_new.py` lines 177-179):
`df_metrics[df_metrics['weight_to_jiamu'] > 0]`, then
`sort_values('weight_to_jiamu', ascending=...)`, then `.head(k)`.
The same filter/sort/head pipeline appears in
`create_relationship_strength_chart` (`streamlit_page.py` lines 256-260,
ascending with k = 15).  `sort_values` is modelled as a comparison sort on
the `weight_to_jiamu` column; the pandas call leaves the relative order of
equal keys implementation-defined (default `kind='quicksort'`), so no
property proved below depends on the tie order of the model. -/
def topByWeight (rows : List Row) (k : ℕ) (descending : Bool) : List Row :=
  ((rows.filter (fun r => 0 < r.weight_to_jiamu)).insertionSort
      (weightOrder descending)).take k

/-- The selection of `create_centrality_comparison_chart`
(`streamlit_page.py` lines 331-335):
`jiamu_related = df_metrics[df_metrics['weight_to_jiamu'] > 0].copy()`
followed directly by `top_10 = jiamu_related.head(10)` — no sort. -/
def create_centrality_comparison_select (df_metrics : List Row) : List Row :=
  (df_metrics.filter (fun r => 0 < r.weight_to_jiamu)).take 10

/-- The selection of `show_centrality_analysis`
(`streamlit_page_new.py` lines 271-272):
`valid_chars = df_metrics[df_metrics['weight_to_jiamu'] > 0].head(8)` — no sort. -/
def show_centrality_analysis_select (df_metrics : List Row) : List Row :=
  (df_metrics.filter (fun r => 0 < r.weight_to_jiamu)).take 8

/-- Per-category total used by `aggregateByCategory`: the sum of the
weights of the neighbors classified into category `t`. -/
def categoryTotal (neighborWeights : List (String × ℚ)) (t : String) : ℚ :=
  ((neighborWeights.filter (fun nw => get_character_type nw.1 = t)).map
    (fun nw => nw.2)).sum

/-- The aggregation of `show_network_visualization`
(`streamlit_page_new.py` lines 213-228): build one record
`{'character': neighbor, 'weight': weight, 'type': get_character_type(neighbor)}`
per neighbor of 賈母, then
`df_neighbors.groupby('type')['weight'].sum()`.
A pandas groupby produces one group per distinct key value occurring in
the column; the result is the mapping from each occurring key to the sum
of the weights in its group (the order in which the distinct keys are
listed is immaterial to the mapping). -/
def aggregateByCategory (neighborWeights : List (String × ℚ)) :
    List (String × ℚ) :=
  ((neighborWeights.map (fun nw => get_character_type nw.1)).dedup).map
    (fun t => (t, categoryTotal neighborWeights t))

/-- The reconstructed networkx graph (`self.G = nx.node_link_graph(...)`),
viewed through the only operations the plot and viz paths use:
node membership (`'賈母' in self.G`) and the stable neighbor iteration
order (`list(self.G.neighbors('賈母'))`). -/
structure NxGraph where
  nodes : List String
  adj : String → List String

/-- networkx `G.neighbors(n)`: returns the adjacency iterator when `n` is
in the graph and raises `NetworkXError("The node n is not in the graph.")`
otherwise.  The exception is modelled as the `Except.error` case. -/
def nxNeighbors (g : NxGraph) (v : String) : Except String (List String) :=
  if v ∈ g.nodes then .ok (g.adj v)
  else .error "NetworkXError: the node is not in the graph."

/-- The circle point assigned to index `i` of `n` neighbors:
`(radius * cos(i * angle_step), radius * sin(i * angle_step))` with
`radius = 2.0` and `angle_step = 2 * pi / n`. -/
noncomputable def layoutPoint (n i : ℕ) : ℝ × ℝ :=
  (2 * Real.cos (i * (2 * Real.pi / n)),
   2 * Real.sin (i * (2 * Real.pi / n)))

/-- A single Python dict assignment `pos[k] = val`: the updated mapping
binds `k` to `val` and leaves every other key unchanged. -/
def dictInsert (pos : String → Option (ℝ × ℝ)) (k : String) (val : ℝ × ℝ) :
    String → Option (ℝ × ℝ) :=
  fun v => if v = k then some val else pos v

/-- Run the assignments `pos[node] = f i` for each `(i, node)` in order on
the starting dict: a later assignment to the same key overwrites an
earlier one, as a Python dict does. -/
noncomputable def applyAssignments (f : ℕ → ℝ × ℝ) :
    List (ℕ × String) → (String → Option (ℝ × ℝ)) → String → Option (ℝ × ℝ)
  | [], pos => pos
  | p :: rest, pos => applyAssignments f rest (dictInsert pos p.2 (f p.1))

/-- The circular layout of `create_central_network_plot`
(`streamlit_page.py` lines 127-139):
`pos = {}`; `pos['賈母'] = (0, 0)`; `radius = 2.0`;
`angle_step = 2 * pi / len(jiamu_neighbors)`; and for
`i, node in enumerate(jiamu_neighbors)`:
`pos[node] = (radius * cos(i * angle_step), radius * sin(i * angle_step))`.
The Python dict `pos` is modelled as the mapping it denotes after all
assignments, with dict-overwrite semantics: if a later assignment targets
an earlier key — in particular, if 賈母 has a self-loop and therefore
appears in its own neighbor list — the later value wins, exactly as in
the source. -/
noncomputable def radialLayout (jiamu_neighbors : List String) :
    String → Option (ℝ × ℝ) :=
  applyAssignments (layoutPoint jiamu_neighbors.length) jiamu_neighbors.enum
    (dictInsert (fun _ => none) "賈母" (0, 0))

namespace StreamlitPage

/-- Outcome of `create_central_network_plot` (`streamlit_page.py`): the
two `st.error`-and-`return None` exits, the uncaught networkx exception,
or the figure (represented by the computed node positions). -/
inductive PlotResult where
  | dataUnavailable
  | isolated
  | nxException (msg : String)
  | ok (pos : String → Option (ℝ × ℝ))

/-- `create_central_network_plot` (`streamlit_page.py` lines 110-139),
up to the layout computation (the rest of the function renders the
already-computed positions):
`if self.G is None: st.error(...); return None`;
`jiamu_neighbors = list(self.G.neighbors('賈母'))` — note there is **no**
membership check before this call, so an absent focal node raises;
`if not jiamu_neighbors: st.error(...); return None`;
then the circular layout. -/
noncomputable def create_central_network_plot (G : Option NxGraph) :
    PlotResult :=
  match G with
  | none => .dataUnavailable
  | some g =>
    match nxNeighbors g "賈母" with
    | .error msg => .nxException msg
    | .ok jiamu_neighbors =>
      if jiamu_neighbors.isEmpty then .isolated
      else .ok (radialLayout jiamu_neighbors)

end StreamlitPage

namespace StreamPageNew1

/-- Outcome of `show_simple_network_viz` (`Project/stream_page_new1.py`):
the three `st.warning`-and-`return` exits, or the visualization built
from the focal node's neighbor list. -/
inductive VizResult where
  | unavailable
  | incomplete
  | noNeighbors
  | proceeds (neighbors : List String)
deriving DecidableEq

/-- `show_simple_network_viz` (`Project/stream_page_new1.py` lines
163-179), up to the neighbor extraction:
`if not self.data_loaded or not PLOTLY_AVAILABLE: st.warning(...); return`;
`if self.G is None or '賈母' not in self.G: st.warning(...); return`;
`neighbors = list(self.G.neighbors('賈母'))`;
`if not neighbors: st.warning(...); return`;
afterwards the function only renders data derived from `neighbors`. -/
def show_simple_network_viz (data_loaded plotly_available : Bool)
    (G : Option NxGraph) : VizResult :=
  if !data_loaded || !plotly_available then .unavailable
  else
    match G with
    | none => .incomplete
    | some g =>
      if "賈母" ∈ g.nodes then
        match g.adj "賈母" with
        | [] => .noNeighbors
        | n :: ns => .proceeds (n :: ns)
      else .incomplete

end StreamPageNew1

/-- Lexicographic comparison of character lists by code point, used only
to pick one canonical representative for each undirected edge. -/
def charsLe : List Char → List Char → Bool
  | [], _ => true
  | _ :: _, [] => false
  | a :: as, b :: bs =>
    if a.toNat < b.toNat then true
    else if b.toNat < a.toNat then false
    else charsLe as bs

/-- Canonical ordering of node identifiers (any antisymmetric choice of
edge representative works; this one is kernel-computable). -/
def strLe (a b : String) : Bool := charsLe a.data b.data

/-- The edge-level view of the reconstructed networkx graph, used by the
statistics paths: the node set and the set of undirected edges.  An
undirected networkx edge is stored once, as the pair with its endpoints
in canonical order; a self-loop is the pair `(v, v)`.  networkx
guarantees the endpoints of every edge are nodes of the graph. -/
structure NxGraphE where
  nodes : Finset String
  edges : Finset (String × String)
  edge_canon : ∀ e ∈ edges, strLe e.1 e.2 = true
  edge_mem_fst : ∀ e ∈ edges, e.1 ∈ nodes
  edge_mem_snd : ∀ e ∈ edges, e.2 ∈ nodes

/-- networkx `nx.density(G)` for an undirected graph
(networkx `classes/function.py`):
`if m == 0 or n <= 1: return 0` and otherwise `d = m / (n * (n - 1))`
doubled for undirected graphs, i.e. `2E / (N * (N - 1))`. -/
def nxDensity (g : NxGraphE) : ℚ :=
  if g.edges.card = 0 ∨ g.nodes.card ≤ 1 then 0
  else 2 * g.edges.card / ((g.nodes.card : ℚ) * ((g.nodes.card : ℚ) - 1))

/-- networkx `G.degree(v)`: the number of edges incident to `v`, with
self-loops counted twice. -/
def nxDegree (g : NxGraphE) (v : String) : ℕ :=
  (g.edges.filter (fun e => e.1 = v ∨ e.2 = v)).card +
    (if (v, v) ∈ g.edges then 1 else 0)

namespace StreamlitPage

/-- Outcome of the statistics block of `display_network_statistics`:
the `st.error`-and-`return` exit when the graph is absent, the uncaught
`ZeroDivisionError`, or the four computed statistics. -/
inductive StatsResult where
  | unavailable
  | zeroDivisionError
  | ok (node_count edge_count : ℕ) (network_density average_degree : ℚ)

/-- The statistics block of `display_network_statistics`
(`streamlit_page.py` lines 389-399):
`if self.G is None: st.error(...); return`;
`node_count = self.G.number_of_nodes()`;
`edge_count = self.G.number_of_edges()`;
`network_density = nx.density(self.G)`;
`average_degree = sum(dict(self.G.degree()).values()) / node_count` —
note the division by `node_count` with no guard, which raises
`ZeroDivisionError` when the loaded graph has zero nodes (modelled by
the `zeroDivisionError` constructor).  The remainder of the function
formats these values and further per-character data for display. -/
def display_network_statistics (G : Option NxGraphE) : StatsResult :=
  match G with
  | none => .unavailable
  | some g =>
    let node_count := g.nodes.card
    let edge_count := g.edges.card
    let network_density := nxDensity g
    if node_count = 0 then .zeroDivisionError
    else
      .ok node_count edge_count network_density
        ((∑ v ∈ g.nodes, (nxDegree g v : ℚ)) / node_count)

end StreamlitPage

/-- The parsed artifact (`step3_data`, the JSON object loaded from
`output/step3_data.json`): its four top-level fields, each possibly
absent.  Present values are modelled directly as their reconstructed
in-memory form (the node-link encoding as the graph it reconstructs to),
and are assumed truthy — the claims under study concern missing fields.
`metrics` maps metric names to scores; `relationship_type_analysis` maps
a category to its `(total_weight, character_count)` pair. -/
structure Artifact where
  network : Option NxGraph
  metrics : Option (List (String × ℚ))
  df_metrics : Option (List Row)
  relationship_type_analysis : Option (List (String × ℚ × ℕ))

/-- The in-memory bundle a successful load produces: the fields
`self.G`, `self.metrics`, `self.df_metrics`,
`self.relationship_type_analysis`. -/
structure Bundle where
  G : Option NxGraph
  metrics : List (String × ℚ)
  df_metrics : Option (List Row)
  relationship_type_analysis : List (String × ℚ × ℕ)

namespace StreamlitPage

/-- Outcome of `load_data` (`streamlit_page.py`): either the `except`
branch ran (`st.error('数据加载失败: ...')`, only `self.G = None` is set
and no other attribute is usable), or all attributes were assigned. -/
inductive LoadResult where
  | failed
  | ok (b : Bundle)

/-- `load_data` (`streamlit_page.py` lines 63-82), applied to an artifact
that was read and parsed:
`self.G = nx.node_link_graph(...) if self.step3_data['network'] else None` —
direct indexing, so a missing `network` raises `KeyError`;
`self.metrics = self.step3_data['metrics']` — `KeyError` if missing;
`self.df_metrics = pd.DataFrame(...) if self.step3_data['df_metrics'] else None`
— the condition indexes directly, so `KeyError` if missing;
`self.relationship_type_analysis = self.step3_data.get('relationship_type_analysis', {})`
— tolerant.  Any `KeyError` is caught by the surrounding `except`,
which reports a failed load. -/
def load_data (a : Artifact) : LoadResult :=
  match a.network with
  | none => .failed
  | some nw =>
    match a.metrics with
    | none => .failed
    | some m =>
      match a.df_metrics with
      | none => .failed
      | some df =>
        .ok ⟨some nw, m, some df, a.relationship_type_analysis.getD []⟩

end StreamlitPage

namespace StreamlitPageNew

/-- Outcome of `load_data` (`streamlit_page_new.py`): the missing-file
exit (`st.error('❌ 数据文件不存在: ...')`, `return False`), the `except`
branch, or a successful load (`self.data_loaded = True`, `return True`). -/
inductive LoadResult where
  | notFound
  | ok (b : Bundle)

/-- `load_data` (`streamlit_page_new.py` lines 57-83):
`if not os.path.exists(data_path): st.error(...); return False`;
then, for a parsed artifact:
`self.G = nx.node_link_graph(...) if NETWORKX_AVAILABLE and self.step3_data.get('network') else None`;
`self.metrics = self.step3_data.get('metrics', {})`;
`self.df_metrics = pd.DataFrame(self.step3_data['df_metrics']) if self.step3_data.get('df_metrics') else None`
— the guard uses `.get`, and the direct index only runs when the field is
present;
`self.relationship_type_analysis = self.step3_data.get('relationship_type_analysis', {})`.
No field access can raise on a parsed artifact, so the `except` branch is
unreachable for missing fields.  `NETWORKX_AVAILABLE` is taken as true
(the import succeeded). -/
def load_data (fileExists : Bool) (a : Artifact) : LoadResult :=
  if fileExists then
    .ok ⟨a.network, a.metrics.getD [], a.df_metrics,
         a.relationship_type_analysis.getD []⟩
  else .notFound

end StreamlitPageNew

/-- A concrete metrics table used to instantiate the ranking properties:
two characters with positive weight to the focal node and one with zero. -/
def c2_demo_rows : List Row :=
  [mkRow "鴛鴦" 3, mkRow "妙玉" 0, mkRow "平兒" 1]

/-- Ten rows of weight 1, in a fixed upstream order. -/
def c10_filler_rows : List Row :=
  [mkRow "甲" 1, mkRow "乙" 1, mkRow "丙" 1, mkRow "丁" 1, mkRow "戊" 1,
   mkRow "己" 1, mkRow "庚" 1, mkRow "辛" 1, mkRow "壬" 1, mkRow "癸" 1]

/-- A row whose weight dominates every filler row. -/
def c10_strong_row : Row := mkRow "王熙鳳" 99

/-- A loaded graph with zero nodes: the reconstruction of a node-link
encoding `{'nodes': [], 'links': []}`, which is a truthy (non-empty) dict,
so `load_data` builds an empty graph rather than leaving `self.G = None`. -/
def emptyGraphE : NxGraphE :=
  ⟨∅, ∅, by simp, by simp, by simp⟩

/-- A loaded graph with two nodes, one ordinary edge 甲–乙 and one
self-loop 甲–甲 (the node-link encoding permits self-loop links). -/
def selfLoopGraphE : NxGraphE where
  nodes := {"甲", "乙"}
  edges := {("甲", "甲"), ("乙", "甲")}
  edge_canon := by decide
  edge_mem_fst := by decide
  edge_mem_snd := by decide

/-- A loaded graph with two nodes and a single ordinary edge. -/
def singleEdgeGraphE : NxGraphE where
  nodes := {"甲", "乙"}
  edges := {("乙", "甲")}
  edge_canon := by decide
  edge_mem_fst := by decide
  edge_mem_snd := by decide

/-! ## Theorems -/

/-- C4: `get_character_type` is a deterministic total function on strings:
it checks the static membership lists in the fixed priority order
family_male, family_female, servants, guests; the first list containing
the identifier determines the category; an identifier in none of the
lists yields `'other'`.  Totality and determinism hold because the
embedding is a Lean function defined for every string (the loop indexes
nothing and can raise nothing); the conjuncts below establish the
first-match-wins priority order and the fallback. -/
theorem get_character_type_spec (character : String) :
    (character ∈ family_male_members →
      get_character_type character = "family_male")
  ∧ (character ∉ family_male_members → character ∈ family_female_members →
      get_character_type character = "family_female")
  ∧ (character ∉ family_male_members → character ∉ family_female_members →
      character ∈ servants_members →
      get_character_type character = "servants")
  ∧ (character ∉ family_male_members → character ∉ family_female_members →
      character ∉ servants_members → character ∈ guests_members →
      get_character_type character = "guests")
  ∧ (character ∉ family_male_members → character ∉ family_female_members →
      character ∉ servants_members → character ∉ guests_members →
      get_character_type character = "other") := by
  refine ⟨?_, ?_, ?_, ?_, ?_⟩ <;> intros <;>
    simp_all [get_character_type, character_types, get_character_type_go]

/-- Witness for C4: 晴雯 is absent from the two family lists and present
in the servants list, so she classifies as a servant. -/
theorem get_character_type_spec_witness :
    get_character_type "晴雯" = "servants" :=
  (get_character_type_spec "晴雯").2.2.1 (by decide) (by decide) (by decide)

/-- C2: `topByWeight` with `k = 10` descending returns at most 10 rows,
every returned row has positive weight to the focal node, the rows are
non-increasing by that weight, and when the filtered set has at most 10
rows the result contains exactly the filtered set. -/
theorem topByWeight_spec (rows : List Row) :
    (topByWeight rows 10 true).length ≤ 10
  ∧ (∀ r ∈ topByWeight rows 10 true, 0 < r.weight_to_jiamu)
  ∧ List.Pairwise (fun a b => b.weight_to_jiamu ≤ a.weight_to_jiamu)
      (topByWeight rows 10 true)
  ∧ ((rows.filter (fun r => 0 < r.weight_to_jiamu)).length ≤ 10 →
      (topByWeight rows 10 true).Perm
        (rows.filter (fun r => 0 < r.weight_to_jiamu))) := by
  unfold topByWeight
  refine ⟨List.length_take_le _ _, ?_, ?_, ?_⟩
  · intro r hr
    have h1 := List.mem_of_mem_take hr
    have h2 := (List.perm_insertionSort (weightOrder true) _).subset h1
    exact of_decide_eq_true (List.mem_filter.mp h2).2
  · have hs := List.sorted_insertionSort (weightOrder true)
      (rows.filter (fun r => 0 < r.weight_to_jiamu))
    have hp := List.Pairwise.sublist (List.take_sublist 10 _) hs
    exact hp.imp (fun h => by simpa [weightOrder] using h)
  · intro hlen
    have hlen2 : ((rows.filter (fun r => 0 < r.weight_to_jiamu)).insertionSort
        (weightOrder true)).length ≤ 10 := by
      rw [(List.perm_insertionSort _ _).length_eq]
      exact hlen
    rw [List.take_of_length_le hlen2]
    exact List.perm_insertionSort _ _

/-- Witness for C2: on a concrete three-row table with two positive
weights, the filtered set has at most 10 rows and the result is exactly
that filtered set. -/
theorem topByWeight_spec_witness :
    (c2_demo_rows.filter (fun r => 0 < r.weight_to_jiamu)).length ≤ 10
  ∧ (topByWeight c2_demo_rows 10 true).Perm
      (c2_demo_rows.filter (fun r => 0 < r.weight_to_jiamu)) :=
  ⟨by decide, (topByWeight_spec c2_demo_rows).2.2.2 (by decide)⟩

/-- Pointwise sums distribute over a mapped list. -/
theorem list_sum_map_add {α : Type} (l : List α) (f g : α → ℚ) :
    (l.map (fun x => f x + g x)).sum = (l.map f).sum + (l.map g).sum := by
  induction l with
  | nil => simp
  | cons a l ih => simp [ih]; ring

/-- Summing an indicator of a single element over a duplicate-free list
containing it yields that element's value. -/
theorem list_sum_map_ite_eq (ts : List String) (hnd : ts.Nodup) (t0 : String)
    (ht : t0 ∈ ts) (w : ℚ) :
    (ts.map (fun t => if t0 = t then w else 0)).sum = w := by
  induction ts with
  | nil => cases ht
  | cons a ts ih =>
    rcases List.mem_cons.mp ht with h | h
    · subst h
      have hz : (ts.map (fun t => if t0 = t then w else 0)).sum = 0 := by
        apply List.sum_eq_zero
        intro x hx
        obtain ⟨t, htm, rfl⟩ := List.mem_map.mp hx
        have hne : t0 ≠ t := by
          rintro rfl
          exact (List.nodup_cons.mp hnd).1 htm
        simp [hne]
      simp [hz]
    · have hne : t0 ≠ a := by
        rintro rfl
        exact (List.nodup_cons.mp hnd).1 h
      simp [hne, ih (List.nodup_cons.mp hnd).2 h]

/-- Splitting a category total over the first neighbor. -/
theorem categoryTotal_cons (nw : String × ℚ) (l : List (String × ℚ))
    (t : String) :
    categoryTotal (nw :: l) t
      = (if get_character_type nw.1 = t then nw.2 else 0) + categoryTotal l t := by
  by_cases h : get_character_type nw.1 = t <;>
    simp [categoryTotal, List.filter_cons, h]

/-- Summing the per-category totals over any duplicate-free list of
categories that covers every neighbor recovers the total weight. -/
theorem sum_categoryTotal (ts : List String) (hnd : ts.Nodup) :
    ∀ nws : List (String × ℚ), (∀ nw ∈ nws, get_character_type nw.1 ∈ ts) →
      (ts.map (fun t => categoryTotal nws t)).sum = (nws.map (fun nw => nw.2)).sum := by
  intro nws
  induction nws with
  | nil => intro _; simp [categoryTotal]
  | cons nw rest ih =>
    intro hcov
    have hstep : (ts.map (fun t => categoryTotal (nw :: rest) t)).sum
        = (ts.map (fun t => if get_character_type nw.1 = t then nw.2 else 0)).sum
          + (ts.map (fun t => categoryTotal rest t)).sum := by
      rw [← list_sum_map_add]
      congr 1
      apply List.map_congr_left
      intro t _
      exact categoryTotal_cons nw rest t
    rw [hstep,
      list_sum_map_ite_eq ts hnd _ (hcov nw (List.mem_cons_self nw rest)) nw.2,
      ih (fun x hx => hcov x (List.mem_cons_of_mem nw hx))]
    simp

/-- C5: for every sequence of neighbor-weight pairs, the per-category
values of `aggregateByCategory` sum to exactly the sum of all input
weights (no weight lost or double-counted), every key of the result has
at least one contributing neighbor (no empty category appears), and the
keys are pairwise distinct (the result is a mapping). -/
theorem aggregateByCategory_spec (neighborWeights : List (String × ℚ)) :
    ((aggregateByCategory neighborWeights).map (fun p => p.2)).sum
        = (neighborWeights.map (fun nw => nw.2)).sum
  ∧ (∀ p ∈ aggregateByCategory neighborWeights,
      ∃ nw ∈ neighborWeights, get_character_type nw.1 = p.1)
  ∧ ((aggregateByCategory neighborWeights).map (fun p => p.1)).Nodup := by
  refine ⟨?_, ?_, ?_⟩
  · unfold aggregateByCategory
    rw [List.map_map]
    exact sum_categoryTotal _ (List.nodup_dedup _) _
      (fun nw h => List.mem_dedup.mpr (List.mem_map_of_mem _ h))
  · intro p hp
    obtain ⟨t, ht, rfl⟩ := List.mem_map.mp hp
    obtain ⟨nw, hnw, he⟩ := List.mem_map.mp (List.mem_dedup.mp ht)
    exact ⟨nw, hnw, he⟩
  · unfold aggregateByCategory
    rw [List.map_map]
    have hid : ((fun p : String × ℚ => p.1) ∘
        fun t => (t, categoryTotal neighborWeights t)) = id := rfl
    rw [hid, List.map_id]
    exact List.nodup_dedup _

/-- C10: both centrality-comparison views select their rows by taking the
first k rows (10 in the old variant, 8 in the new one) of the metrics
table filtered to positive weight, in the original table order, without
sorting by weight: the selection is a sublist of the input table, and on
a concrete table whose strongest row arrives last, that strongest row is
dropped while it is kept when the same rows arrive in a different order —
the selection is determined by upstream row order, not by relationship
strength ranking. -/
theorem centrality_selection_spec (df_metrics : List Row) :
    create_centrality_comparison_select df_metrics
        = (df_metrics.filter (fun r => 0 < r.weight_to_jiamu)).take 10
  ∧ show_centrality_analysis_select df_metrics
        = (df_metrics.filter (fun r => 0 < r.weight_to_jiamu)).take 8
  ∧ (create_centrality_comparison_select df_metrics).Sublist df_metrics
  ∧ (show_centrality_analysis_select df_metrics).Sublist df_metrics
  ∧ (∀ r ∈ create_centrality_comparison_select df_metrics,
      0 < r.weight_to_jiamu)
  ∧ (∀ r ∈ show_centrality_analysis_select df_metrics,
      0 < r.weight_to_jiamu)
  ∧ (create_centrality_comparison_select df_metrics).length ≤ 10
  ∧ (show_centrality_analysis_select df_metrics).length ≤ 8
  ∧ (c10_filler_rows ++ [c10_strong_row]).Perm
      (c10_strong_row :: c10_filler_rows)
  ∧ c10_strong_row ∉
      create_centrality_comparison_select (c10_filler_rows ++ [c10_strong_row])
  ∧ c10_strong_row ∈
      create_centrality_comparison_select (c10_strong_row :: c10_filler_rows) := by
  refine ⟨rfl, rfl, ?_, ?_, ?_, ?_, List.length_take_le _ _,
    List.length_take_le _ _, List.perm_append_singleton _ _, ?_, ?_⟩
  · exact (List.take_sublist _ _).trans (List.filter_sublist _)
  · exact (List.take_sublist _ _).trans (List.filter_sublist _)
  · intro r hr
    exact of_decide_eq_true
      (List.mem_filter.mp (List.mem_of_mem_take hr)).2
  · intro r hr
    exact of_decide_eq_true
      (List.mem_filter.mp (List.mem_of_mem_take hr)).2
  · decide
  · decide

/-- Keys never assigned keep their starting binding. -/
theorem applyAssignments_not_mem (f : ℕ → ℝ × ℝ) :
    ∀ (ps : List (ℕ × String)) (pos : String → Option (ℝ × ℝ)) (v : String),
      v ∉ ps.map Prod.snd → applyAssignments f ps pos v = pos v
  | [], _, _, _ => rfl
  | p :: rest, pos, v, hv => by
    rw [List.map_cons, List.mem_cons, not_or] at hv
    show applyAssignments f rest (dictInsert pos p.2 (f p.1)) v = pos v
    rw [applyAssignments_not_mem f rest _ v hv.2]
    simp [dictInsert, hv.1]

/-- When each key is assigned at most once, a key assigned at index `i`
ends bound to `f i`. -/
theorem applyAssignments_mem (f : ℕ → ℝ × ℝ) :
    ∀ (ps : List (ℕ × String)) (pos : String → Option (ℝ × ℝ)) (i : ℕ)
      (v : String), (ps.map Prod.snd).Nodup → (i, v) ∈ ps →
      applyAssignments f ps pos v = some (f i)
  | [], _, _, _, _, hmem => by cases hmem
  | p :: rest, pos, i, v, hnd, hmem => by
    rw [List.map_cons, List.nodup_cons] at hnd
    rcases List.mem_cons.mp hmem with h | h
    · obtain ⟨j, w⟩ := p
      injection h with h1 h2
      subst h1
      subst h2
      show applyAssignments f rest (dictInsert pos v (f i)) v = some (f i)
      rw [applyAssignments_not_mem f rest _ v hnd.1]
      simp [dictInsert]
    · exact applyAssignments_mem f rest _ i v hnd.2 h

/-- Counterexample for C1: a loadable graph may carry a self-loop at the
focal node (the same loadability that C9's counterexample rests on), and
then 賈母 appears in `list(self.G.neighbors('賈母'))`.  The enumeration
loop of `streamlit_page.py` lines 135-139 then executes
`pos['賈母'] = (radius * cos(0), radius * sin(0))`, overwriting the
origin assigned at line 129: with the single neighbor 賈母 the layout
leaves the focal node at `(2, 0)`, not at `(0, 0)` as the claim states
for every graph containing the focal node with at least one neighbor. -/
theorem radialLayout_self_loop_overwrites_focal :
    radialLayout ["賈母"] "賈母" = some (2, 0)
  ∧ radialLayout ["賈母"] "賈母" ≠ some (0, 0) := by
  have h1 : radialLayout ["賈母"] "賈母" = some (layoutPoint 1 0) := rfl
  have h2 : layoutPoint 1 0 = (2, 0) := by
    unfold layoutPoint
    norm_num
  rw [h1, h2]
  refine ⟨rfl, ?_⟩
  intro hc
  injection hc with hc2
  rw [Prod.ext_iff] at hc2
  norm_num at hc2

/-- C1 (amended): for a focal node with `n ≥ 1` neighbors none of which
is the focal node itself (no self-loop at the focal node; with one, the
enumeration loop overwrites the focal entry, as the counterexample
shows), the radial layout maps the focal node exactly to the origin and
the i-th neighbor (in the stable, duplicate-free neighbor-iteration
order of the networkx adjacency) to `(R cos(i·2π/n), R sin(i·2π/n))`
with `R = 2`; hence every neighbor position lies on the circle
`x² + y² = R²`, consecutive neighbor positions differ by a rotation
through the angle `2π/n`, and calling the layout twice on unchanged
input yields identical output. -/
theorem radialLayout_spec (ns : List String) (h : 1 ≤ ns.length)
    (hfocal : "賈母" ∉ ns) (hnd : ns.Nodup) :
    radialLayout ns "賈母" = some (0, 0)
  ∧ (∀ (i : ℕ) (hi : i < ns.length),
      radialLayout ns ns[i] =
        some (2 * Real.cos (i * (2 * Real.pi / ns.length)),
          2 * Real.sin (i * (2 * Real.pi / ns.length))))
  ∧ (∀ (i : ℕ) (hi : i < ns.length), ∃ x y : ℝ,
      radialLayout ns ns[i] = some (x, y) ∧ x ^ 2 + y ^ 2 = 2 ^ 2)
  ∧ (∀ (i : ℕ) (hi : i + 1 < ns.length), ∃ x y : ℝ,
      radialLayout ns ns[i] = some (x, y) ∧
      radialLayout ns ns[i + 1] =
        some (Real.cos (2 * Real.pi / ns.length) * x
            - Real.sin (2 * Real.pi / ns.length) * y,
          Real.sin (2 * Real.pi / ns.length) * x
            + Real.cos (2 * Real.pi / ns.length) * y))
  ∧ radialLayout ns = radialLayout ns := by
  have hb : ∀ (i : ℕ) (hi : i < ns.length),
      radialLayout ns ns[i] =
        some (2 * Real.cos (i * (2 * Real.pi / ns.length)),
          2 * Real.sin (i * (2 * Real.pi / ns.length))) := by
    intro i hi
    have hmem : (i, ns[i]) ∈ ns.enum := by
      have hlen : i < ns.enum.length := by
        rw [List.enum_length]
        exact hi
      have he : ns.enum[i] = (i, ns[i]) := List.getElem_enum ns i hlen
      rw [← he]
      exact List.getElem_mem hlen
    have hnd2 : (ns.enum.map Prod.snd).Nodup := by
      rw [List.enum_map_snd]
      exact hnd
    exact applyAssignments_mem (layoutPoint ns.length) ns.enum _ i ns[i] hnd2 hmem
  refine ⟨?_, hb, ?_, ?_, rfl⟩
  · show applyAssignments _ ns.enum _ "賈母" = some (0, 0)
    rw [applyAssignments_not_mem]
    · simp [dictInsert]
    · rw [List.enum_map_snd]
      exact hfocal
  · intro i hi
    refine ⟨_, _, hb i hi, ?_⟩
    nlinarith [Real.sin_sq_add_cos_sq (i * (2 * Real.pi / ns.length))]
  · intro i hi
    refine ⟨2 * Real.cos (i * (2 * Real.pi / ns.length)),
      2 * Real.sin (i * (2 * Real.pi / ns.length)),
      hb i (by omega), ?_⟩
    rw [hb (i + 1) hi]
    simp only [Option.some.injEq, Prod.mk.injEq]
    constructor
    · push_cast
      rw [add_mul, one_mul, Real.cos_add]
      ring
    · push_cast
      rw [add_mul, one_mul, Real.sin_add]
      ring

/-- Witness for C1 (amended): a single neighbor distinct from the focal
node satisfies the layout contract; in particular the focal node maps to
the origin. -/
theorem radialLayout_spec_witness :
    radialLayout ["林黛玉"] "賈母" = some (0, 0) :=
  (radialLayout_spec ["林黛玉"] (by decide) (by decide) (by decide)).1

/-- Counterexample for C6: a loaded graph that does not contain 賈母.  In
`streamlit_page.py`, `create_central_network_plot` calls
`list(self.G.neighbors('賈母'))` with no membership check, so the call
raises `NetworkXError` — an unhandled exception, not a returned
`NoFocalNode` failure. -/
theorem create_central_network_plot_absent_focal :
    StreamlitPage.create_central_network_plot (some ⟨["林黛玉"], fun _ => []⟩)
      = StreamlitPage.PlotResult.nxException
          "NetworkXError: the node is not in the graph." := by
  rfl

/-- C6 (amended): in the new1 variant (`show_simple_network_viz`), an
absent graph or absent focal node yields the handled incomplete-data
failure, and a present focal node with zero neighbors yields the handled
no-neighbors failure, with no positions produced; in the old variant
(`create_central_network_plot`), an absent graph yields the handled
data-unavailable failure and a present focal node with zero neighbors
yields the handled isolated failure, but an absent focal node raises an
uncaught networkx exception instead of returning a failure. -/
theorem layout_failure_paths (g : NxGraph) :
    StreamPageNew1.show_simple_network_viz true true none
        = StreamPageNew1.VizResult.incomplete
  ∧ ("賈母" ∉ g.nodes →
      StreamPageNew1.show_simple_network_viz true true (some g)
        = StreamPageNew1.VizResult.incomplete)
  ∧ ("賈母" ∈ g.nodes → g.adj "賈母" = [] →
      StreamPageNew1.show_simple_network_viz true true (some g)
        = StreamPageNew1.VizResult.noNeighbors)
  ∧ StreamlitPage.create_central_network_plot none
        = StreamlitPage.PlotResult.dataUnavailable
  ∧ ("賈母" ∈ g.nodes → g.adj "賈母" = [] →
      StreamlitPage.create_central_network_plot (some g)
        = StreamlitPage.PlotResult.isolated)
  ∧ ("賈母" ∉ g.nodes →
      StreamlitPage.create_central_network_plot (some g)
        = StreamlitPage.PlotResult.nxException
            "NetworkXError: the node is not in the graph.") := by
  refine ⟨rfl, ?_, ?_, rfl, ?_, ?_⟩
  · intro hmem
    simp [StreamPageNew1.show_simple_network_viz, hmem]
  · intro hmem hadj
    simp [StreamPageNew1.show_simple_network_viz, hmem, hadj]
  · intro hmem hadj
    simp [StreamlitPage.create_central_network_plot, nxNeighbors, hmem, hadj]
  · intro hmem
    simp [StreamlitPage.create_central_network_plot, nxNeighbors, hmem]

/-- Witness for C6 (amended): a graph containing only an isolated 賈母
takes the handled no-neighbors path in the new1 variant. -/
theorem layout_failure_paths_witness :
    StreamPageNew1.show_simple_network_viz true true
        (some ⟨["賈母"], fun _ => []⟩)
      = StreamPageNew1.VizResult.noNeighbors :=
  (layout_failure_paths ⟨["賈母"], fun _ => []⟩).2.2.1 (by decide) rfl

/-- Counterexample for C7: an artifact that parses but is missing the
top-level `network` field.  In `streamlit_page.py`, `load_data` indexes
`self.step3_data['network']` directly; the `KeyError` is caught by the
surrounding `except`, which reports the whole load as failed — the
absence of one field is treated as a load error and no other field of
the bundle becomes usable. -/
theorem load_data_missing_network_fails :
    StreamlitPage.load_data ⟨none, some [], some [], some []⟩
      = StreamlitPage.LoadResult.failed := rfl

/-- C7 (amended): in the new variant (`streamlit_page_new.load_data`), a
parsed artifact missing any of the four top-level fields still loads
successfully, and the resulting bundle marks exactly the missing parts
unavailable while keeping every present field usable.  In the old
variant (`streamlit_page.load_data`) this tolerance holds only for
`relationship_type_analysis`: a missing `network`, `metrics` or
`df_metrics` field aborts the whole load as failed. -/
theorem load_data_field_tolerance (a : Artifact) :
    (∃ b : Bundle, StreamlitPageNew.load_data true a = .ok b
      ∧ b.G = a.network
      ∧ b.df_metrics = a.df_metrics
      ∧ (∀ m, a.metrics = some m → b.metrics = m)
      ∧ (∀ r, a.relationship_type_analysis = some r →
          b.relationship_type_analysis = r))
  ∧ (a.network = none → StreamlitPage.load_data a = .failed)
  ∧ (a.metrics = none → StreamlitPage.load_data a = .failed)
  ∧ (a.df_metrics = none → StreamlitPage.load_data a = .failed)
  ∧ (∀ nw m df, a.network = some nw → a.metrics = some m →
      a.df_metrics = some df →
      StreamlitPage.load_data a
        = .ok ⟨some nw, m, some df,
            a.relationship_type_analysis.getD []⟩) := by
  obtain ⟨nwo, mo, dfo, ro⟩ := a
  refine ⟨⟨_, rfl, rfl, rfl, ?_, ?_⟩, ?_, ?_, ?_, ?_⟩
  · intro m hm
    have hm2 : mo = some m := hm
    subst hm2
    rfl
  · intro r hr
    have hr2 : ro = some r := hr
    subst hr2
    rfl
  · intro hn
    subst hn
    rfl
  · intro hm
    subst hm
    cases nwo <;> rfl
  · intro hd
    subst hd
    cases nwo <;> cases mo <;> rfl
  · intro nw m df h1 h2 h3
    subst h1
    subst h2
    subst h3
    rfl

/-- Witness for C7 (amended): the old loader succeeds on an artifact
whose only missing field is `relationship_type_analysis`, defaulting that
field to empty. -/
theorem load_data_field_tolerance_witness :
    StreamlitPage.load_data ⟨some ⟨[], fun _ => []⟩, some [], some [], none⟩
      = StreamlitPage.LoadResult.ok ⟨some ⟨[], fun _ => []⟩, [], some [], []⟩ :=
  (load_data_field_tolerance ⟨some ⟨[], fun _ => []⟩, some [], some [], none⟩)
    |>.2.2.2.2 _ _ _ rfl rfl rfl

/-- C8: evaluating the code at its failing input.  When the artifact file
is missing, the new loader returns the handled not-found failure (and
views guarded by `data_loaded` render a neutral state), but the
statistics view of the old variant, applied to a loaded graph with zero
nodes, raises `ZeroDivisionError` computing
`average_degree = sum(dict(self.G.degree()).values()) / node_count` —
an unhandled fault, contradicting the claim that every degenerate query
follows a defined degraded path. -/
theorem display_network_statistics_empty_graph :
    (∀ a : Artifact, StreamlitPageNew.load_data false a
        = StreamlitPageNew.LoadResult.notFound)
  ∧ StreamlitPage.display_network_statistics (some emptyGraphE)
        = StreamlitPage.StatsResult.zeroDivisionError := by
  constructor
  · intro a
    rfl
  · rfl

/-- Strings are equal when each canonically precedes the other
(antisymmetry of the canonical edge ordering), character-list level. -/
theorem charsLe_antisymm :
    ∀ {x y : List Char}, charsLe x y = true → charsLe y x = true → x = y := by
  intro x
  induction x with
  | nil =>
    intro y h1 h2
    cases y with
    | nil => rfl
    | cons b bs => simp [charsLe] at h2
  | cons a as ih =>
    intro y h1 h2
    cases y with
    | nil => simp [charsLe] at h1
    | cons b bs =>
      by_cases hab : a.toNat < b.toNat
      · have hb : ¬ b.toNat < a.toNat := Nat.lt_asymm hab
        simp [charsLe, hab, hb] at h2
      · by_cases hba : b.toNat < a.toNat
        · simp [charsLe, hab, hba] at h1
        · have hev : a = b :=
            Char.ext (UInt32.ext
              (Nat.le_antisymm (Nat.le_of_not_lt hba) (Nat.le_of_not_lt hab)))
          subst hev
          simp [charsLe, Nat.lt_irrefl] at h1 h2
          rw [ih h1 h2]

/-- Antisymmetry of the canonical edge ordering on strings. -/
theorem strLe_antisymm {a b : String} (h1 : strLe a b = true)
    (h2 : strLe b a = true) : a = b := by
  have h3 : a.data = b.data := charsLe_antisymm h1 h2
  cases a
  cases b
  exact congrArg String.mk (by simpa using h3)

/-- A loopless edge set is disjoint from its swapped copy: every stored
edge is canonically ordered, so its reversal is not stored. -/
theorem edges_disjoint_swap (g : NxGraphE)
    (hl : ∀ e ∈ g.edges, e.1 ≠ e.2) :
    Disjoint g.edges (g.edges.image Prod.swap) := by
  rw [Finset.disjoint_left]
  intro e he hsw
  obtain ⟨f, hf, hfe⟩ := Finset.mem_image.mp hsw
  have c1 := g.edge_canon e he
  have c2 := g.edge_canon f hf
  have hne := hl f hf
  obtain ⟨x, y⟩ := f
  subst hfe
  exact hne (strLe_antisymm c2 c1)

/-- A loopless undirected graph has at most `N (N - 1) / 2` edges:
the edges together with their swapped copies inject into the off-diagonal
pairs of the node set. -/
theorem two_mul_edges_le (g : NxGraphE)
    (hl : ∀ e ∈ g.edges, e.1 ≠ e.2) :
    2 * g.edges.card ≤ g.nodes.card * g.nodes.card - g.nodes.card := by
  have hsub : g.edges ∪ g.edges.image Prod.swap ⊆ g.nodes.offDiag := by
    intro e he
    rcases Finset.mem_union.mp he with h | h
    · exact Finset.mem_offDiag.mpr
        ⟨g.edge_mem_fst e h, g.edge_mem_snd e h, hl e h⟩
    · obtain ⟨f, hf, hfe⟩ := Finset.mem_image.mp h
      subst hfe
      exact Finset.mem_offDiag.mpr
        ⟨g.edge_mem_snd f hf, g.edge_mem_fst f hf, (hl f hf).symm⟩
  have hcard : (g.edges ∪ g.edges.image Prod.swap).card = 2 * g.edges.card := by
    rw [Finset.card_union_of_disjoint (edges_disjoint_swap g hl),
      Finset.card_image_of_injective _ Prod.swap_injective]
    ring
  calc 2 * g.edges.card
      = (g.edges ∪ g.edges.image Prod.swap).card := hcard.symm
    _ ≤ g.nodes.offDiag.card := Finset.card_le_card hsub
    _ = g.nodes.card * g.nodes.card - g.nodes.card := Finset.offDiag_card _

/-- Counterexample for C9: a loadable graph with two nodes, an ordinary
edge and a self-loop.  networkx counts the self-loop in
`number_of_edges()`, so `nx.density` returns
`2·2 / (2·1) = 2`, which is outside `[0, 1]`. -/
theorem nxDensity_self_loop_exceeds_one :
    nxDensity selfLoopGraphE = 2 ∧ ¬ nxDensity selfLoopGraphE ≤ 1 := by
  have hn : selfLoopGraphE.nodes.card = 2 := by decide
  have hm : selfLoopGraphE.edges.card = 2 := by decide
  have h : nxDensity selfLoopGraphE = 2 := by
    unfold nxDensity
    rw [hn, hm]
    norm_num
  exact ⟨h, by rw [h]; norm_num⟩

/-- C9 (amended): for every loaded graph, `density()` is non-negative,
equals 0 whenever the node count is at most 1, equals
`2E / (N (N - 1))` whenever `N ≥ 2`, and lies in `[0, 1]` provided the
graph has no self-loops (a graph with a self-loop can exceed 1, as the
counterexample shows). -/
theorem nxDensity_spec (g : NxGraphE) :
    0 ≤ nxDensity g
  ∧ (g.nodes.card ≤ 1 → nxDensity g = 0)
  ∧ (2 ≤ g.nodes.card →
      nxDensity g
        = 2 * g.edges.card / ((g.nodes.card : ℚ) * ((g.nodes.card : ℚ) - 1)))
  ∧ ((∀ e ∈ g.edges, e.1 ≠ e.2) → nxDensity g ≤ 1) := by
  have hden : ∀ hn : 2 ≤ g.nodes.card,
      (0 : ℚ) < (g.nodes.card : ℚ) * ((g.nodes.card : ℚ) - 1) := by
    intro hn
    have h2 : (2 : ℚ) ≤ (g.nodes.card : ℚ) := by exact_mod_cast hn
    nlinarith
  refine ⟨?_, ?_, ?_, ?_⟩
  · unfold nxDensity
    split
    · exact le_refl 0
    · next hcond =>
      push_neg at hcond
      have hn : 2 ≤ g.nodes.card := by omega
      exact div_nonneg (by positivity) (le_of_lt (hden hn))
  · intro h1
    unfold nxDensity
    rw [if_pos (Or.inr h1)]
  · intro hn
    unfold nxDensity
    by_cases hm : g.edges.card = 0
    · rw [if_pos (Or.inl hm), hm]
      norm_num
    · rw [if_neg (by push_neg; exact ⟨hm, by omega⟩)]
  · intro hl
    unfold nxDensity
    split
    · norm_num
    · next hcond =>
      push_neg at hcond
      have hn : 2 ≤ g.nodes.card := by omega
      rw [div_le_one (hden hn)]
      have hnat : 2 * g.edges.card ≤ g.nodes.card * g.nodes.card - g.nodes.card :=
        two_mul_edges_le g hl
      have hle : g.nodes.card ≤ g.nodes.card * g.nodes.card :=
        Nat.le_mul_of_pos_left _ (by omega)
      have hq : 2 * (g.edges.card : ℚ)
          ≤ (g.nodes.card : ℚ) * (g.nodes.card : ℚ) - (g.nodes.card : ℚ) := by
        have := (Nat.cast_le (α := ℚ)).mpr hnat
        rwa [Nat.cast_sub hle, Nat.cast_mul, Nat.cast_mul, Nat.cast_ofNat] at this
      nlinarith
  
/-- Witness for C9 (amended): the density of the loopless two-node,
one-edge graph is at most 1. -/
theorem nxDensity_spec_witness :
    nxDensity singleEdgeGraphE ≤ 1 :=
  (nxDensity_spec singleEdgeGraphE).2.2.2 (by decide)
